import Mathlib

/-!
Shallow embedding of the computational core of the Supply-Chain-Forecasting-Tool
repository (src/utils/forecasting.ts and the analysis pipelines of src/App.tsx),
with the floating-point arithmetic of the source idealised as real arithmetic.
Dates of the form "YYYY-MM-DD" are embedded as a pair of an absolute month index
(`ym` = year * 12 + month) and a day of month; lexicographic comparison of such a
pair agrees with the string comparison `localeCompare` / `<=` the source performs
on zero-padded date strings, and with comparison of `Date.getTime()` values.
-/

namespace SCF

/-- Calendar date: absolute month index (year * 12 + month - 1) and day of month.
Mirrors the "YYYY-MM-DD" strings of the source. -/
structure CalDate where
  ym : ℕ
  day : ℕ
deriving DecidableEq, Repr

instance : LE CalDate :=
  ⟨fun a b => a.ym < b.ym ∨ (a.ym = b.ym ∧ a.day ≤ b.day)⟩

instance : LT CalDate :=
  ⟨fun a b => a.ym < b.ym ∨ (a.ym = b.ym ∧ a.day < b.day)⟩

theorem CalDate.le_def (a b : CalDate) :
    (a ≤ b) = (a.ym < b.ym ∨ (a.ym = b.ym ∧ a.day ≤ b.day)) := rfl

theorem CalDate.lt_def (a b : CalDate) :
    (a < b) = (a.ym < b.ym ∨ (a.ym = b.ym ∧ a.day < b.day)) := rfl

instance (a b : CalDate) : Decidable (a ≤ b) := by
  rw [CalDate.le_def]; infer_instance

instance (a b : CalDate) : Decidable (a < b) := by
  rw [CalDate.lt_def]; infer_instance

/-- One observed point of a historical series (types.ts `DataPoint`). -/
structure DataPoint where
  date : CalDate
  sku : String
  category : String
  quantity : ℝ

/-- One point of a forecast series (types.ts `ForecastPoint`); fields the source
marks optional are `Option ℝ`. -/
structure ForecastPoint where
  date : CalDate
  historical : Option ℝ := none
  forecast : ℝ
  lowerBound : Option ℝ := none
  upperBound : Option ℝ := none
  isForecast : Bool
  projectedInventory : Option ℝ := none
  safetyStock : Option ℝ := none
  reorderPoint : Option ℝ := none
  scenarioForecast : Option ℝ := none
  projectedRevenue : Option ℝ := none
  projectedMargin : Option ℝ := none

/-- Placeholder point used as the default of `List.getD` lookups in statements;
the indices used are always in range, so its value never matters. -/
def dummyPoint : ForecastPoint :=
  { date := ⟨0, 1⟩, forecast := 0, isForecast := false }

/-- A market shock (types.ts `MarketShock`): `month` is the "YYYY-MM" month,
embedded as an absolute month index. -/
structure MarketShock where
  id : String
  month : ℕ
  description : String
  percentageChange : ℝ

/-- The method selector (types.ts `ForecastMethodology`). -/
inductive ForecastMethodology where
  | holtWinters
  | prophet
  | arima
  | linear
  | aggregateAllocate
deriving DecidableEq, Repr

/-- The Holt-Winters sub-variant selector. -/
inductive HWMethod where
  | additive
  | multiplicative
deriving DecidableEq, Repr

/-- Population standard deviation (forecasting.ts `getStdDev`). -/
noncomputable def getStdDev (values : List ℝ) : ℝ :=
  if values.length = 0 then 0
  else
    Real.sqrt ((values.map
      (fun x => (x - values.sum / values.length) ^ 2)).sum / values.length)

/-- Confidence-level to z-multiplier mapping (forecasting.ts `getZMultiplier`). -/
noncomputable def getZMultiplier (conf : ℝ) : ℝ :=
  if 99 ≤ conf then 2.576
  else if 95 ≤ conf then 1.96
  else if 90 ≤ conf then 1.645
  else if 85 ≤ conf then 1.44
  else if 80 ≤ conf then 1.28
  else 1.96

/-- Auto-detection of the Holt-Winters variant (forecasting.ts `detectHWMethod`). -/
noncomputable def detectHWMethod (values : List ℝ) : HWMethod :=
  if values.length < 4 then .multiplicative
  else
    let n := values.length
    let mean := values.sum / n
    let stdDev := getStdDev values
    let cv := if 0 < mean then stdDev / mean else 0
    let earlyDataSize := (n + 3) / 4
    let earlyValues := values.take earlyDataSize
    let lowValueThreshold := mean * 0.2
    let sparseCount :=
      (earlyValues.filter fun v => decide (v = 0 ∨ v < lowValueThreshold)).length
    let earlySparsity :=
      if 0 < earlyValues.length then (sparseCount : ℝ) / earlyValues.length else 0
    let sumX := ((List.range n).map (fun i => (i : ℝ))).sum
    let sumY := values.sum
    let sumXY := (values.enum.map (fun p => (p.1 : ℝ) * p.2)).sum
    let sumXX := ((List.range n).map (fun i => (i : ℝ) * i)).sum
    let slope := (n * sumXY - sumX * sumY) / (n * sumXX - sumX * sumX)
    let trendStrength := |slope| / (if 0 < mean then mean else 1)
    if 0.5 < cv ∨ 0.4 < earlySparsity ∨ 0.05 < trendStrength then .additive
    else .multiplicative

/-- Smoothing state of the Holt-Winters recursions. -/
structure HWState where
  level : ℝ
  trend : ℝ
  seasonal : List ℝ

/-- One pass of the additive Holt-Winters update loop
(forecasting.ts `runHoltWintersAdditive`, loop body). -/
noncomputable def hwAdditiveStep (L : ℕ) (st : HWState) (p : ℕ × ℝ) : HWState :=
  let i := p.1
  let value := p.2
  let s := st.seasonal.getD (i % L) 0
  let newLevel := 0.3 * (value - s) + (1 - 0.3) * (st.level + st.trend)
  let newTrend := 0.1 * (newLevel - st.level) + (1 - 0.1) * st.trend
  { level := newLevel, trend := newTrend,
    seasonal := st.seasonal.set (i % L) (0.05 * (value - newLevel) + (1 - 0.05) * s) }

/-- Holt-Winters additive variant (forecasting.ts `runHoltWintersAdditive`). -/
noncomputable def runHoltWintersAdditive (values : List ℝ) (horizon L : ℕ) : List ℝ :=
  let n := values.length
  let m := values.sum / n
  let level0 := if m = 0 then 1 else m
  let seasonal0 := (List.range L).map
    (fun i => if i < min L n then values.getD i 0 - level0 else 0)
  let st := values.enum.foldl (hwAdditiveStep L)
    { level := level0, trend := 0, seasonal := seasonal0 }
  (List.range' 1 horizon).map
    (fun i => max 0 (st.level + i * st.trend + st.seasonal.getD ((n + i - 1) % L) 0))

/-- One pass of the multiplicative Holt-Winters update loop
(forecasting.ts `runHoltWintersMultiplicative`, loop body). -/
noncomputable def hwMultiplicativeStep (L : ℕ) (st : HWState) (p : ℕ × ℝ) : HWState :=
  let i := p.1
  let value := p.2
  let s := st.seasonal.getD (i % L) 0
  let sDenom := if s = 0 then 1 else s
  let newLevel := 0.3 * (value / sDenom) + (1 - 0.3) * (st.level + st.trend)
  let newTrend := 0.1 * (newLevel - st.level) + (1 - 0.1) * st.trend
  let lDenom := if newLevel = 0 then 1 else newLevel
  { level := newLevel, trend := newTrend,
    seasonal := st.seasonal.set (i % L) (0.05 * (value / lDenom) + (1 - 0.05) * s) }

/-- Holt-Winters multiplicative variant
(forecasting.ts `runHoltWintersMultiplicative`). -/
noncomputable def runHoltWintersMultiplicative (values : List ℝ) (horizon L : ℕ) : List ℝ :=
  let n := values.length
  let initPeriod := min L n
  let m := (values.take initPeriod).sum / initPeriod
  let level0 := if m = 0 then 1 else m
  let trend0 :=
    (values.getD (min (L - 1) (n - 1)) 0 - values.getD 0 0) / (min L (n - 1) : ℕ)
  let seasonal0 := (List.range L).map
    (fun i => if i < initPeriod then values.getD i 0 / level0 else 1)
  let st := values.enum.foldl (hwMultiplicativeStep L)
    { level := level0, trend := trend0, seasonal := seasonal0 }
  (List.range' 1 horizon).map
    (fun i => max 0 ((st.level + i * st.trend) * st.seasonal.getD ((n + i - 1) % L) 0))

/-- Dispatch between the two Holt-Winters variants (forecasting.ts `runHoltWinters`). -/
noncomputable def runHoltWinters (values : List ℝ) (horizon L : ℕ) (method : HWMethod) :
    List ℝ :=
  match method with
  | .additive => runHoltWintersAdditive values horizon L
  | .multiplicative => runHoltWintersMultiplicative values horizon L

/-- Prophet-inspired simulation (forecasting.ts `runProphet`). -/
noncomputable def runProphet (values : List ℝ) (horizon : ℕ) : List ℝ :=
  let n := values.length
  let avgGrowth := (values.getD (n - 1) 0 - values.getD 0 0) / n
  let mean := values.sum / n
  let seasonal := (List.range 12).map
    (fun j => ((values.enum.filter (fun p => p.1 % 12 = j)).map
      (fun p => p.2 - mean)).sum / ((n + 11) / 12 : ℕ))
  (List.range' 1 horizon).map
    (fun i =>
      let simulatedVal := seasonal.getD ((i - 1) % 12) 0 + mean + avgGrowth * 1.2 * i
      ((max 0 (round simulatedVal) : ℤ) : ℝ))

/-- The autoregressive recurrence of the ARIMA simulation: regression toward the
long-term mean with coefficient 0.85 (forecasting.ts `runArima`, loop body). -/
noncomputable def arimaIter (mean x0 : ℝ) : ℕ → ℝ
  | 0 => x0
  | k + 1 => mean + 0.85 * (arimaIter mean x0 k - mean)

/-- ARIMA simulation (forecasting.ts `runArima`). -/
noncomputable def runArima (values : List ℝ) (horizon : ℕ) : List ℝ :=
  let n := values.length
  let mean := values.sum / n
  (List.range' 1 horizon).map
    (fun i => max 0 (arimaIter mean (values.getD (n - 1) 0) i))

/-- Ordinary-least-squares linear trend (forecasting.ts `runLinear`). -/
noncomputable def runLinear (values : List ℝ) (horizon : ℕ) : List ℝ :=
  let n := values.length
  let sumX := ((List.range n).map (fun i => (i : ℝ))).sum
  let sumY := values.sum
  let sumXY := (values.enum.map (fun p => (p.1 : ℝ) * p.2)).sum
  let sumXX := ((List.range n).map (fun i => (i : ℝ) * i)).sum
  let slope := (n * sumXY - sumX * sumY) / (n * sumXX - sumX * sumX)
  let intercept := (sumY - slope * sumX) / n
  (List.range' 1 horizon).map
    (fun i => max 0 (slope * ((n + i - 1 : ℕ) : ℝ) + intercept))

/-- The method switch of forecasting.ts `calculateForecast`; the `default` branch
of the source's `switch` runs Holt-Winters. -/
noncomputable def forecastDispatch (method : ForecastMethodology) (hw : HWMethod)
    (values : List ℝ) (horizon L : ℕ) : List ℝ :=
  match method with
  | .linear => runLinear values horizon
  | .prophet => runProphet values horizon
  | .arima => runArima values horizon
  | .holtWinters => runHoltWinters values horizon L hw
  | .aggregateAllocate => runHoltWinters values horizon L hw

/-- Quantities of the points usable for training: those dated on or before the
cutoff (forecasting.ts `calculateForecast`, `trainingData` / `values`). -/
noncomputable def trainingValues (historicalData : List DataPoint)
    (trainingDataEndDate : CalDate) : List ℝ :=
  (historicalData.filter (fun d => d.date ≤ trainingDataEndDate)).map (·.quantity)

/-- The Holt-Winters sub-variant actually run: auto-detected when requested for
the Holt-Winters method, the configured one otherwise (forecasting.ts
`calculateForecast`, `effectiveHWMethod`). -/
noncomputable def effectiveHW (method : ForecastMethodology) (autoDetectHW : Bool)
    (hwMethod : HWMethod) (values : List ℝ) : HWMethod :=
  if method = .holtWinters ∧ autoDetectHW then detectHWMethod values else hwMethod

/-- The confidence-interval half-width at a 1-based forecast step
(forecasting.ts `calculateForecast`, `uncertainty`):
z-multiplier times standard deviation times sqrt(step) times 0.4. -/
noncomputable def boundUncertainty (confidenceLevel : ℝ) (values : List ℝ)
    (step : ℕ) : ℝ :=
  getZMultiplier confidenceLevel * getStdDev values * Real.sqrt (step : ℝ) * 0.4

/-- Main forecast entry point (forecasting.ts `calculateForecast`). Training data
is the points dated on or before the cutoff; fewer than 3 of them yield the empty
list. The output lists every historical point (marked `isForecast` past the
cutoff) followed by `horizon` forecast points, each with confidence bounds
`round(value ± z * stdDev * sqrt(step) * 0.4)`, the lower bound floored at 0.
The source normalizes the cutoff to the first of its month before the month
arithmetic; here the forecast date is directly `cutoff.ym + step` with day 1. -/
noncomputable def calculateForecast (historicalData : List DataPoint) (horizon : ℕ)
    (trainingDataEndDate : CalDate) (confidenceLevel : ℝ)
    (method : ForecastMethodology) (hwMethod : HWMethod) (autoDetectHW : Bool) :
    List ForecastPoint :=
  if historicalData.length < 3 then []
  else
    let trainingData := historicalData.filter (fun d => d.date ≤ trainingDataEndDate)
    if trainingData.length < 3 then []
    else
      let values := trainingValues historicalData trainingDataEndDate
      let L := 12
      let effectiveHWMethod := effectiveHW method autoDetectHW hwMethod values
      let forecastValues := forecastDispatch method effectiveHWMethod values horizon L
      let results := historicalData.map
        (fun d => ({ date := d.date, historical := some d.quantity,
                     forecast := d.quantity,
                     isForecast := decide (trainingDataEndDate < d.date) } : ForecastPoint))
      results ++ forecastValues.enum.map
        (fun p =>
          let step : ℕ := p.1 + 1
          let uncertainty := boundUncertainty confidenceLevel values step
          { date := ⟨trainingDataEndDate.ym + step, 1⟩,
            forecast := ((round p.2 : ℤ) : ℝ),
            lowerBound := some ((max 0 (round (p.2 - uncertainty)) : ℤ) : ℝ),
            upperBound := some ((round (p.2 + uncertainty) : ℤ) : ℝ),
            isForecast := true })

/-- Scaling of one optional field by a market shock: the source writes
`point.field ? Math.round(point.field * multiplier) : undefined`, so a present
field whose value is 0 is falsy in JavaScript and comes out `undefined`. -/
noncomputable def shockOptField (multiplier : ℝ) (o : Option ℝ) : Option ℝ :=
  match o with
  | some v => if v = 0 then none else some ((round (v * multiplier) : ℤ) : ℝ)
  | none => none

/-- The update applied to one forecast point whose month matches a shock
(forecasting.ts `applyMarketShocks`, map body, matching branch). -/
noncomputable def shockPointUpdate (multiplier : ℝ) (p : ForecastPoint) : ForecastPoint :=
  { p with
    forecast := ((round (p.forecast * multiplier) : ℤ) : ℝ),
    scenarioForecast := shockOptField multiplier p.scenarioForecast,
    projectedInventory := shockOptField multiplier p.projectedInventory,
    projectedRevenue := shockOptField multiplier p.projectedRevenue,
    projectedMargin := shockOptField multiplier p.projectedMargin }

/-- The per-point body of `applyMarketShocks`: the first shock whose "YYYY-MM"
month equals the point's month rescales the point when it is a forecast point;
otherwise the point is returned unchanged. -/
noncomputable def applyShockToPoint (shocks : List MarketShock)
    (point : ForecastPoint) : ForecastPoint :=
  match shocks.find? (fun s => s.month = point.date.ym) with
  | some shock =>
      if point.isForecast then
        shockPointUpdate (1 + shock.percentageChange / 100) point
      else point
  | none => point

/-- Application of market shocks to a forecast series
(forecasting.ts `applyMarketShocks`). -/
noncomputable def applyMarketShocks (forecastPoints : List ForecastPoint)
    (shocks : List MarketShock) : List ForecastPoint :=
  if shocks.length = 0 then forecastPoints
  else forecastPoints.map (applyShockToPoint shocks)

/-- Mean of a volatility window (App.tsx `volatilityResults`, `avg`). -/
noncomputable def windowMean (quantities : List ℝ) : ℝ :=
  quantities.sum / quantities.length

/-- Population standard deviation of a volatility window
(App.tsx `volatilityResults`, `stdDev`). -/
noncomputable def windowStdDev (quantities : List ℝ) : ℝ :=
  Real.sqrt ((quantities.map (fun q => (q - windowMean quantities) ^ 2)).sum /
    quantities.length)

/-- Coefficient of variation of a volatility window, in percent
(App.tsx `volatilityResults`, `cv`): 0 unless the mean is positive. -/
noncomputable def volatilityCV (quantities : List ℝ) : ℝ :=
  if 0 < windowMean quantities then
    windowStdDev quantities / windowMean quantities * 100
  else 0

/-- Qualitative volatility risk tier. -/
inductive RiskTier where
  | low
  | medium
  | high
deriving DecidableEq, Repr

/-- Risk tier from a CV percentage (App.tsx `portfolioChanges`:
`volatility > 50 ? High : volatility > 30 ? Medium : Low`). -/
noncomputable def riskTier (cv : ℝ) : RiskTier :=
  if 50 < cv then .high else if 30 < cv then .medium else .low

/-- ABC / Pareto volume tier. -/
inductive ABCGrade where
  | A
  | B
  | C
deriving DecidableEq, Repr

/-- Numeric rank of an ABC tier, used to state monotonicity of tiers. -/
def gradeRank : ABCGrade → ℕ
  | .A => 0
  | .B => 1
  | .C => 2

/-- Modelled from the spec: the tier-threshold rule of `runParetoAnalysis`
(utils/supplyChain.ts, not among the repository's files): tier A while the
running cumulative percentage is at most 80, B while at most 95, C thereafter. -/
noncomputable def gradeOfPct (pct : ℝ) : ABCGrade :=
  if pct ≤ 80 then .A else if pct ≤ 95 then .B else .C

/-- One classification row (spec data model `ClassificationResult`). -/
structure ClassificationResult where
  sku : String
  totalVolume : ℝ
  grade : ABCGrade
  percentOfTotal : ℝ

/-- Modelled from the spec: the running-cumulative pass of `runParetoAnalysis`
(utils/supplyChain.ts, not among the repository's files). Walks the
descending-sorted items accumulating volume and grades each item by the
cumulative percentage of the grand total reached at that item. -/
noncomputable def paretoGo (total : ℝ) : ℝ → List (String × ℝ) → List ClassificationResult
  | _, [] => []
  | acc, (s, v) :: rest =>
    { sku := s, totalVolume := v,
      grade := gradeOfPct ((acc + v) / total * 100),
      percentOfTotal := v / total * 100 } :: paretoGo total (acc + v) rest

/-- Modelled from the spec: `runParetoAnalysis` (utils/supplyChain.ts, not among
the repository's files). Sorts descending by volume with a stable sort, computes
the running cumulative percentage of the grand total, and assigns tier A while
that percentage is at most 80, B while at most 95, C thereafter. -/
noncomputable def runParetoAnalysis (items : List (String × ℝ)) : List ClassificationResult :=
  paretoGo ((items.map (·.2)).sum) 0 (items.mergeSort (fun a b => decide (b.2 ≤ a.2)))

/-- Default observed point, used only as the `getD` fallback for lookups the
source performs on lists it has already checked non-empty. -/
def dummyDataPoint : DataPoint :=
  { date := ⟨0, 1⟩, sku := "", category := "", quantity := 0 }

/-- Per-method backtest data of one SKU (App.tsx `backtestResults`, the value
stored in `skuMethods`): forecast dates, forecast values, matched actuals. -/
structure MethodRun where
  dates : List CalDate
  forecasts : List ℝ
  actuals : List ℝ

/-- One SKU's series: filtered to the SKU and sorted ascending by date
(App.tsx `backtestResults`, `skuData`). -/
noncomputable def skuSeries (data : List DataPoint) (sku : String) : List DataPoint :=
  (data.filter (fun d => d.sku = sku)).mergeSort (fun a b => decide (a.date ≤ b.date))

/-- The 13-month backtest forecast of one SKU under one method, with actuals
matched to forecast dates by normalized month equality (0 when no actual exists);
models App.tsx `backtestResults`, Phase 1 inner loop, with
`includeExternalTrends` off (no market adjustment). -/
noncomputable def mkMethodRun (skuData trainData : List DataPoint) (trainEnd : CalDate)
    (conf : ℝ) (hw : HWMethod) (auto : Bool) (method : ForecastMethodology) : MethodRun :=
  let forecast := calculateForecast trainData 13 trainEnd conf method hw auto
  let forecastDates := (forecast.filter (·.isForecast)).map (·.date)
  { dates := forecastDates,
    forecasts := (forecast.filter (·.isForecast)).map (·.forecast),
    actuals := forecastDates.map (fun fDate =>
      match skuData.find? (fun d => d.date.ym = fDate.ym) with
      | some d => d.quantity
      | none => 0) }

/-- Per-SKU backtest eligibility and forecasting (App.tsx `backtestResults`,
Phase 1): a SKU with fewer than 18 points, or fewer than 6 training points dated
before the holdout start, is skipped (`none`); otherwise all four methods are
forecast from the training split. -/
noncomputable def processSku (data : List DataPoint) (conf : ℝ) (hw : HWMethod)
    (auto : Bool) (testStart : CalDate) (sku : String) :
    Option (ForecastMethodology → MethodRun) :=
  let skuData := skuSeries data sku
  if skuData.length < 18 then none
  else
    let trainData := skuData.filter (fun d => d.date < testStart)
    if trainData.length < 6 then none
    else
      let trainEnd := (trainData.getLast?.getD dummyDataPoint).date
      some (fun method => mkMethodRun skuData trainData trainEnd conf hw auto method)

/-- The Phase-2 slice of one method run to the scoring window (App.tsx
`backtestResults`, `methodData.dates.forEach`): every index whose forecast date
lies between the test start and the test end contributes its (actual, forecast)
pair. Forecast dates are month-normalized day-1 dates, so the source's
timestamp comparison (with its 24-hour extension of the end) is month-index
comparison. -/
def sliceWindow (testStartYm testEndYm : ℕ) (run : MethodRun) : List (ℝ × ℝ) :=
  (List.range run.dates.length).filterMap (fun idx =>
    if testStartYm ≤ (run.dates.getD idx ⟨0, 1⟩).ym ∧
        (run.dates.getD idx ⟨0, 1⟩).ym ≤ testEndYm then
      some (run.actuals.getD idx 0, run.forecasts.getD idx 0)
    else none)

/-- Weighted MAPE of a list of (actual, forecast) pairs (App.tsx
`backtestResults`, Phase 2 metric block). -/
noncomputable def mapeOf (pairs : List (ℝ × ℝ)) : ℝ :=
  let num := (pairs.map (fun p => |p.1 - p.2|)).sum
  let den := (pairs.map (fun p => |p.1|)).sum
  if 0 < den then num / den * 100 else 0

/-- All (actual, forecast) pairs one method's aggregation collects across SKUs
(App.tsx `backtestResults`, Phase 2): the holdout window is anchored at the
forecast start month, `testStart = forecastStart - 12` months and
`testEnd = forecastStart - 1` month, and eligible SKUs contribute their sliced
pairs in SKU order. -/
noncomputable def backtestMethodPairs (data : List DataPoint) (skus : List String)
    (conf : ℝ) (hw : HWMethod) (auto : Bool) (forecastStartYm : ℕ)
    (method : ForecastMethodology) : List (ℝ × ℝ) :=
  (skus.filterMap (processSku data conf hw auto ⟨forecastStartYm - 12, 1⟩)).flatMap
    (fun runs => sliceWindow (forecastStartYm - 12) (forecastStartYm - 1) (runs method))

/-- Concrete three-point series used to instantiate the non-negativity theorem. -/
noncomputable def exampleData3 : List DataPoint :=
  [{ date := ⟨0, 1⟩, sku := "A", category := "c", quantity := 5 },
   { date := ⟨1, 1⟩, sku := "A", category := "c", quantity := 7 },
   { date := ⟨2, 1⟩, sku := "A", category := "c", quantity := 6 }]

/-- Concrete two-point series: too short for any forecast. -/
noncomputable def exampleData2 : List DataPoint :=
  [{ date := ⟨0, 1⟩, sku := "A", category := "c", quantity := 1 },
   { date := ⟨1, 1⟩, sku := "A", category := "c", quantity := 2 }]

/-- Concrete four-point series with population standard deviation exactly 2,
used to exercise the confidence-bound formula. -/
noncomputable def exampleData4 : List DataPoint :=
  [{ date := ⟨0, 1⟩, sku := "A", category := "c", quantity := 0 },
   { date := ⟨1, 1⟩, sku := "A", category := "c", quantity := 4 },
   { date := ⟨2, 1⟩, sku := "A", category := "c", quantity := 4 },
   { date := ⟨3, 1⟩, sku := "A", category := "c", quantity := 0 }]

/-- A forecast point carrying a present-but-zero scenario forecast, in month 24. -/
noncomputable def exampleShockPoint : ForecastPoint :=
  { date := ⟨24, 1⟩, forecast := 10, isForecast := true, scenarioForecast := some 0 }

/-- A +50% market shock in month 24. -/
noncomputable def exampleShock : MarketShock :=
  { id := "s1", month := 24, description := "demand spike", percentageChange := 50 }

/-- A backtest method run whose single forecast date is the first month of the
12-month holdout window (12 months before the forecast start month 100), with
actual 10 against forecast 7. -/
def exampleLeadRun : MethodRun :=
  { dates := [⟨88, 1⟩], forecasts := [7], actuals := [10] }

/-! Helper lemmas. -/

theorem listSum_map_mul (l : List ℝ) (k : ℝ) :
    (l.map (fun q => k * q)).sum = k * l.sum := by
  induction l with
  | nil => simp
  | cons a t ih => simp [ih]; ring

theorem gradeRank_gradeOfPct_mono {p q : ℝ} (h : p ≤ q) :
    gradeRank (gradeOfPct p) ≤ gradeRank (gradeOfPct q) := by
  unfold gradeOfPct
  split_ifs <;> simp [gradeRank] <;> linarith

theorem paretoGo_grade_mem (l : List (String × ℝ)) (total : ℝ)
    (hv : ∀ p ∈ l, 0 ≤ p.2) :
    ∀ acc : ℝ, ∀ e ∈ paretoGo total acc l,
      ∃ c, acc ≤ c ∧ e.grade = gradeOfPct (c / total * 100) := by
  induction l with
  | nil => intro acc e he; simp [paretoGo] at he
  | cons hd tl ih =>
    obtain ⟨s, v⟩ := hd
    have hhd : (0:ℝ) ≤ v := hv (s, v) (List.mem_cons_self _ _)
    have htlv : ∀ p ∈ tl, 0 ≤ p.2 := fun p hp => hv p (List.mem_cons_of_mem _ hp)
    intro acc e he
    rw [paretoGo] at he
    rcases List.mem_cons.mp he with rfl | htl
    · exact ⟨acc + v, by linarith, rfl⟩
    · obtain ⟨c, hc, hg⟩ := ih htlv (acc + v) e htl
      exact ⟨c, by linarith, hg⟩

theorem paretoGo_pairwise (l : List (String × ℝ)) (total : ℝ) (htot : 0 ≤ total)
    (hv : ∀ p ∈ l, 0 ≤ p.2) :
    ∀ acc : ℝ,
      List.Pairwise (fun a b => gradeRank a.grade ≤ gradeRank b.grade)
        (paretoGo total acc l) := by
  induction l with
  | nil => intro acc; simp [paretoGo]
  | cons hd tl ih =>
    obtain ⟨s, v⟩ := hd
    have htlv : ∀ p ∈ tl, 0 ≤ p.2 := fun p hp => hv p (List.mem_cons_of_mem _ hp)
    intro acc
    rw [paretoGo]
    refine List.Pairwise.cons ?_ (ih htlv (acc + v))
    intro e he
    obtain ⟨c, hc, hg⟩ := paretoGo_grade_mem tl total htlv (acc + v) e he
    rw [hg]
    apply gradeRank_gradeOfPct_mono
    rw [div_eq_mul_inv, div_eq_mul_inv]
    have hinv : (0:ℝ) ≤ total⁻¹ := inv_nonneg.mpr htot
    have h1 : (acc + v) * total⁻¹ ≤ c * total⁻¹ :=
      mul_le_mul_of_nonneg_right hc hinv
    exact mul_le_mul_of_nonneg_right h1 (by norm_num)

/-! Claim theorems. -/

theorem getZMultiplier_nonneg (conf : ℝ) : 0 ≤ getZMultiplier conf := by
  unfold getZMultiplier
  split_ifs <;> norm_num

theorem getStdDev_nonneg (values : List ℝ) : 0 ≤ getStdDev values := by
  unfold getStdDev
  split_ifs
  · exact le_refl 0
  · exact Real.sqrt_nonneg _

theorem round_nonneg_of_nonneg {x : ℝ} (hx : 0 ≤ x) : 0 ≤ round x := by
  rw [round_eq]
  exact Int.le_floor.mpr (by push_cast; linarith)

theorem boundUncertainty_nonneg (conf : ℝ) (values : List ℝ) (step : ℕ) :
    0 ≤ boundUncertainty conf values step := by
  unfold boundUncertainty
  have h1 := getZMultiplier_nonneg conf
  have h2 := getStdDev_nonneg values
  have h3 := Real.sqrt_nonneg ((step : ℝ))
  positivity

theorem snd_mem_of_mem_enum {α : Type _} {l : List α} {p : ℕ × α}
    (h : p ∈ l.enum) : p.2 ∈ l := by
  obtain ⟨i, x⟩ := p
  obtain ⟨hi, hx⟩ := List.mem_enum h
  have hmem := List.getElem_mem hi
  show x ∈ l
  rwa [← hx] at hmem

theorem runHoltWintersAdditive_nonneg (values : List ℝ) (horizon L : ℕ) :
    ∀ v ∈ runHoltWintersAdditive values horizon L, 0 ≤ v := by
  intro v hv
  simp only [runHoltWintersAdditive, List.mem_map] at hv
  obtain ⟨i, _, rfl⟩ := hv
  exact le_max_left 0 _

theorem runHoltWintersMultiplicative_nonneg (values : List ℝ) (horizon L : ℕ) :
    ∀ v ∈ runHoltWintersMultiplicative values horizon L, 0 ≤ v := by
  intro v hv
  simp only [runHoltWintersMultiplicative, List.mem_map] at hv
  obtain ⟨i, _, rfl⟩ := hv
  exact le_max_left 0 _

theorem runProphet_nonneg (values : List ℝ) (horizon : ℕ) :
    ∀ v ∈ runProphet values horizon, 0 ≤ v := by
  intro v hv
  simp only [runProphet, List.mem_map] at hv
  obtain ⟨i, _, rfl⟩ := hv
  exact Int.cast_nonneg.mpr (le_max_left 0 _)

theorem runArima_nonneg (values : List ℝ) (horizon : ℕ) :
    ∀ v ∈ runArima values horizon, 0 ≤ v := by
  intro v hv
  simp only [runArima, List.mem_map] at hv
  obtain ⟨i, _, rfl⟩ := hv
  exact le_max_left 0 _

theorem runLinear_nonneg (values : List ℝ) (horizon : ℕ) :
    ∀ v ∈ runLinear values horizon, 0 ≤ v := by
  intro v hv
  simp only [runLinear, List.mem_map] at hv
  obtain ⟨i, _, rfl⟩ := hv
  exact le_max_left 0 _

theorem forecastDispatch_nonneg (method : ForecastMethodology) (hw : HWMethod)
    (values : List ℝ) (horizon L : ℕ) :
    ∀ v ∈ forecastDispatch method hw values horizon L, 0 ≤ v := by
  cases method <;> cases hw <;>
    simp only [forecastDispatch, runHoltWinters] <;>
    first
      | exact runLinear_nonneg values horizon
      | exact runProphet_nonneg values horizon
      | exact runArima_nonneg values horizon
      | exact runHoltWintersAdditive_nonneg values horizon L
      | exact runHoltWintersMultiplicative_nonneg values horizon L

theorem length_forecastDispatch (method : ForecastMethodology) (hw : HWMethod)
    (values : List ℝ) (horizon L : ℕ) :
    (forecastDispatch method hw values horizon L).length = horizon := by
  cases method <;> cases hw <;>
    simp [forecastDispatch, runHoltWinters, runLinear, runProphet, runArima,
      runHoltWintersAdditive, runHoltWintersMultiplicative]

theorem calculateForecast_forecastPoint (data : List DataPoint) (horizon : ℕ)
    (cutoff : CalDate) (conf : ℝ) (method : ForecastMethodology) (hw : HWMethod)
    (auto : Bool) (i : ℕ)
    (h3 : 3 ≤ (data.filter (fun d => d.date ≤ cutoff)).length) (hi : i < horizon) :
    (calculateForecast data horizon cutoff conf method hw auto).getD
        (data.length + i) dummyPoint =
      { date := ⟨cutoff.ym + (i + 1), 1⟩,
        forecast := ((round ((forecastDispatch method
          (effectiveHW method auto hw (trainingValues data cutoff))
          (trainingValues data cutoff) horizon 12).getD i 0) : ℤ) : ℝ),
        lowerBound := some ((max 0 (round ((forecastDispatch method
          (effectiveHW method auto hw (trainingValues data cutoff))
          (trainingValues data cutoff) horizon 12).getD i 0 -
          boundUncertainty conf (trainingValues data cutoff) (i + 1))) : ℤ) : ℝ),
        upperBound := some ((round ((forecastDispatch method
          (effectiveHW method auto hw (trainingValues data cutoff))
          (trainingValues data cutoff) horizon 12).getD i 0 +
          boundUncertainty conf (trainingValues data cutoff) (i + 1)) : ℤ) : ℝ),
        isForecast := true } := by
  have hd3 : ¬ data.length < 3 := by
    have := List.length_filter_le (fun d => decide (d.date ≤ cutoff)) data
    omega
  have hf3 : ¬ (data.filter (fun d => d.date ≤ cutoff)).length < 3 := by omega
  have hlen : (forecastDispatch method
      (effectiveHW method auto hw (trainingValues data cutoff))
      (trainingValues data cutoff) horizon 12).length = horizon :=
    length_forecastDispatch _ _ _ _ _
  have hilen : i < (forecastDispatch method
      (effectiveHW method auto hw (trainingValues data cutoff))
      (trainingValues data cutoff) horizon 12).length := by rw [hlen]; exact hi
  simp only [calculateForecast]
  rw [if_neg hd3, if_neg hf3, List.getD_eq_getElem?_getD,
    List.getElem?_append_right (by simp [List.length_map])]
  simp only [List.length_map, Nat.add_sub_cancel_left, List.getElem?_map,
    List.getElem?_enum, List.getElem?_eq_getElem hilen]
  simp only [Option.map_some', Option.getD_some]
  rw [List.getD_eq_getElem?_getD, List.getElem?_eq_getElem hilen]
  rfl

theorem trainingValues_exampleData4 :
    trainingValues exampleData4 ⟨3, 1⟩ = [0, 4, 4, 0] := by
  simp [trainingValues, exampleData4, List.filter, CalDate.le_def]

theorem filter_exampleData4_length :
    (exampleData4.filter (fun d => d.date ≤ (⟨3, 1⟩ : CalDate))).length = 4 := by
  simp [exampleData4, List.filter, CalDate.le_def]

theorem getStdDev_example : getStdDev [(0:ℝ), 4, 4, 0] = 2 := by
  unfold getStdDev
  norm_num
  rw [show (4:ℝ) = 2 ^ 2 by norm_num, Real.sqrt_sq (by norm_num : (0:ℝ) ≤ 2)]

theorem runArima_example : runArima [(0:ℝ), 4, 4, 0] 1 = [3/10] := by
  simp only [runArima, List.range', List.map_cons, List.map_nil]
  norm_num [arimaIter]

theorem getZMultiplier_95 : getZMultiplier 95 = 1.96 := by
  unfold getZMultiplier
  norm_num

theorem boundUncertainty_example :
    boundUncertainty 95 [(0:ℝ), 4, 4, 0] 1 = 196 / 125 := by
  unfold boundUncertainty
  rw [getStdDev_example, getZMultiplier_95, Nat.cast_one, Real.sqrt_one]
  norm_num

/-- C4 counterexample: on the series [0, 4, 4, 0] with the ARIMA method and a
95% confidence level, the upper bound is the rounding of the unrounded forecast
value plus the half-width (giving 2), not the rounded point forecast plus the
half-width (which would be 1.568), so the bounds do not equal the point
forecast plus/minus the half-width. -/
theorem calculateForecast_bounds_counterexample :
    ((calculateForecast exampleData4 1 ⟨3, 1⟩ 95 .arima .multiplicative false).getD
        4 dummyPoint).upperBound ≠
      some (((calculateForecast exampleData4 1 ⟨3, 1⟩ 95 .arima .multiplicative
          false).getD 4 dummyPoint).forecast +
        getZMultiplier 95 * getStdDev (trainingValues exampleData4 ⟨3, 1⟩) *
          Real.sqrt 1 * 0.4) := by
  have h3 : 3 ≤ (exampleData4.filter (fun d => d.date ≤ (⟨3, 1⟩ : CalDate))).length := by
    rw [filter_exampleData4_length]
    norm_num
  have hpt := calculateForecast_forecastPoint exampleData4 1 ⟨3, 1⟩ 95 .arima
    .multiplicative false 0 h3 (by norm_num)
  have hdisp : forecastDispatch .arima
      (effectiveHW .arima false .multiplicative (trainingValues exampleData4 ⟨3, 1⟩))
      (trainingValues exampleData4 ⟨3, 1⟩) 1 12 = [3/10] := by
    rw [trainingValues_exampleData4]
    simp only [forecastDispatch]
    exact runArima_example
  have hu : boundUncertainty 95 (trainingValues exampleData4 ⟨3, 1⟩) (0 + 1) = 196 / 125 := by
    rw [trainingValues_exampleData4]
    exact boundUncertainty_example
  rw [hdisp, hu] at hpt
  have hlen4 : exampleData4.length = 4 := by simp [exampleData4]
  rw [show exampleData4.length + 0 = 4 by rw [hlen4]] at hpt
  rw [hpt]
  simp only [List.getD_cons_zero]
  have hround1 : round ((3:ℝ)/10) = 0 := by
    rw [round_eq]
    norm_num [Int.floor_eq_iff]
  have hround2 : round ((3:ℝ)/10 + 196 / 125) = 2 := by
    rw [round_eq]
    norm_num [Int.floor_eq_iff]
  rw [hround1, hround2,
    trainingValues_exampleData4, getStdDev_example, getZMultiplier_95, Real.sqrt_one]
  intro hcontra
  rw [Option.some_inj] at hcontra
  norm_num at hcontra

/-- C4 (amended): at every forecast-ahead step (1-based), the bounds are the
roundings of the unrounded forecast value plus/minus
`z * stdDev * sqrt(step) * 0.4` — the lower bound floored at 0 after rounding —
while the point forecast is that value rounded on its own. -/
theorem calculateForecast_bounds (data : List DataPoint) (horizon : ℕ)
    (cutoff : CalDate) (conf : ℝ) (method : ForecastMethodology) (hw : HWMethod)
    (auto : Bool) (i : ℕ)
    (h3 : 3 ≤ (data.filter (fun d => d.date ≤ cutoff)).length) (hi : i < horizon) :
    (calculateForecast data horizon cutoff conf method hw auto).getD
        (data.length + i) dummyPoint =
      { date := ⟨cutoff.ym + (i + 1), 1⟩,
        forecast := ((round ((forecastDispatch method
          (effectiveHW method auto hw (trainingValues data cutoff))
          (trainingValues data cutoff) horizon 12).getD i 0) : ℤ) : ℝ),
        lowerBound := some ((max 0 (round ((forecastDispatch method
          (effectiveHW method auto hw (trainingValues data cutoff))
          (trainingValues data cutoff) horizon 12).getD i 0 -
          boundUncertainty conf (trainingValues data cutoff) (i + 1))) : ℤ) : ℝ),
        upperBound := some ((round ((forecastDispatch method
          (effectiveHW method auto hw (trainingValues data cutoff))
          (trainingValues data cutoff) horizon 12).getD i 0 +
          boundUncertainty conf (trainingValues data cutoff) (i + 1)) : ℤ) : ℝ),
        isForecast := true } :=
  calculateForecast_forecastPoint data horizon cutoff conf method hw auto i h3 hi

/-- Witness for C4 (amended): the bound shape instantiated on the concrete
series [0, 4, 4, 0] at step 1. -/
theorem calculateForecast_bounds_witness :
    3 ≤ (exampleData4.filter (fun d => d.date ≤ (⟨3, 1⟩ : CalDate))).length ∧
      (calculateForecast exampleData4 1 ⟨3, 1⟩ 95 .arima .multiplicative false).getD
          (exampleData4.length + 0) dummyPoint =
        { date := ⟨(⟨3, 1⟩ : CalDate).ym + (0 + 1), 1⟩,
          forecast := ((round ((forecastDispatch .arima
            (effectiveHW .arima false .multiplicative (trainingValues exampleData4 ⟨3, 1⟩))
            (trainingValues exampleData4 ⟨3, 1⟩) 1 12).getD 0 0) : ℤ) : ℝ),
          lowerBound := some ((max 0 (round ((forecastDispatch .arima
            (effectiveHW .arima false .multiplicative (trainingValues exampleData4 ⟨3, 1⟩))
            (trainingValues exampleData4 ⟨3, 1⟩) 1 12).getD 0 0 -
            boundUncertainty 95 (trainingValues exampleData4 ⟨3, 1⟩) (0 + 1))) : ℤ) : ℝ),
          upperBound := some ((round ((forecastDispatch .arima
            (effectiveHW .arima false .multiplicative (trainingValues exampleData4 ⟨3, 1⟩))
            (trainingValues exampleData4 ⟨3, 1⟩) 1 12).getD 0 0 +
            boundUncertainty 95 (trainingValues exampleData4 ⟨3, 1⟩) (0 + 1)) : ℤ) : ℝ),
          isForecast := true } :=
  ⟨by rw [filter_exampleData4_length]; norm_num,
    calculateForecast_bounds exampleData4 1 ⟨3, 1⟩ 95 .arima .multiplicative false 0
      (by rw [filter_exampleData4_length]; norm_num) (by norm_num)⟩

/-- C1: for every historical series of non-negative quantities and every
horizon, cutoff, confidence level and method, every value in the series
`calculateForecast` returns — the forecast, the lower bound, and the upper
bound, on historical as well as forecast points — is non-negative. -/
theorem calculateForecast_nonneg (data : List DataPoint) (horizon : ℕ)
    (cutoff : CalDate) (conf : ℝ) (method : ForecastMethodology) (hw : HWMethod)
    (auto : Bool) (hq : ∀ d ∈ data, 0 ≤ d.quantity) :
    ∀ p ∈ calculateForecast data horizon cutoff conf method hw auto,
      0 ≤ p.forecast ∧ (∀ x ∈ p.lowerBound, 0 ≤ x) ∧ (∀ x ∈ p.upperBound, 0 ≤ x) := by
  intro p hp
  simp only [calculateForecast] at hp
  split_ifs at hp with h1 h2
  · simp at hp
  · simp at hp
  all_goals
    rcases List.mem_append.mp hp with hmem | hmem
  case _ =>
    obtain ⟨d, hd, rfl⟩ := List.mem_map.mp hmem
    exact ⟨hq d hd, by simp, by simp⟩
  case _ =>
    obtain ⟨q, hqe, rfl⟩ := List.mem_map.mp hmem
    have hv : 0 ≤ q.2 :=
      forecastDispatch_nonneg _ _ _ _ _ _ (snd_mem_of_mem_enum hqe)
    have hu : 0 ≤ boundUncertainty conf (trainingValues data cutoff) (q.1 + 1) :=
      boundUncertainty_nonneg conf (trainingValues data cutoff) (q.1 + 1)
    refine ⟨?_, ?_, ?_⟩
    · exact Int.cast_nonneg.mpr (round_nonneg_of_nonneg hv)
    · intro x hx
      simp only [Option.mem_def, Option.some_inj] at hx
      rw [← hx]
      exact Int.cast_nonneg.mpr (le_max_left 0 _)
    · intro x hx
      simp only [Option.mem_def, Option.some_inj] at hx
      rw [← hx]
      exact Int.cast_nonneg.mpr (round_nonneg_of_nonneg (by
        have := hu
        linarith))

/-- Witness for C1: the concrete three-point series of non-negative quantities
instantiates the non-negativity theorem. -/
theorem calculateForecast_nonneg_witness :
    (∀ d ∈ exampleData3, 0 ≤ d.quantity) ∧
      ∀ p ∈ calculateForecast exampleData3 6 ⟨2, 1⟩ 95 .holtWinters .multiplicative false,
        0 ≤ p.forecast ∧ (∀ x ∈ p.lowerBound, 0 ≤ x) ∧ (∀ x ∈ p.upperBound, 0 ≤ x) := by
  have hq : ∀ d ∈ exampleData3, 0 ≤ d.quantity := by
    intro d hd
    simp only [exampleData3, List.mem_cons, List.not_mem_nil, or_false] at hd
    rcases hd with rfl | rfl | rfl <;> norm_num
  exact ⟨hq, calculateForecast_nonneg exampleData3 6 ⟨2, 1⟩ 95 .holtWinters
    .multiplicative false hq⟩

/-- C3: for every historical series and training cutoff, if fewer than 3 of the
series' points are dated on or before the cutoff, `calculateForecast` returns
the empty list; no forecast is attempted and, the function being total, no error
is raised to the caller. -/
theorem calculateForecast_insufficient_training (data : List DataPoint)
    (horizon : ℕ) (cutoff : CalDate) (conf : ℝ) (method : ForecastMethodology)
    (hw : HWMethod) (auto : Bool)
    (h : (data.filter (fun d => d.date ≤ cutoff)).length < 3) :
    calculateForecast data horizon cutoff conf method hw auto = [] := by
  by_cases h1 : data.length < 3
  · simp only [calculateForecast]
    rw [if_pos h1]
  · simp only [calculateForecast]
    rw [if_neg h1, if_pos h]

/-- Witness for C3: a concrete two-point series yields the empty forecast. -/
theorem calculateForecast_insufficient_training_witness :
    (exampleData2.filter (fun d => d.date ≤ ⟨5, 1⟩)).length < 3 ∧
      calculateForecast exampleData2 6 ⟨5, 1⟩ 95 .holtWinters .multiplicative false = [] := by
  have h : (exampleData2.filter (fun d => d.date ≤ ⟨5, 1⟩)).length < 3 := by
    simp [exampleData2, List.filter, CalDate.le_def]
  exact ⟨h, calculateForecast_insufficient_training exampleData2 6 ⟨5, 1⟩ 95
    .holtWinters .multiplicative false h⟩

/-- C9: `getZMultiplier` is total over all real confidence levels and always
returns one of 2.576, 1.96, 1.645, 1.44, 1.28; for every confidence level below
80 it silently returns 1.96, the 95% quantile. -/
theorem getZMultiplier_total_default (conf : ℝ) :
    (getZMultiplier conf = 2.576 ∨ getZMultiplier conf = 1.96 ∨
      getZMultiplier conf = 1.645 ∨ getZMultiplier conf = 1.44 ∨
      getZMultiplier conf = 1.28) ∧
    (conf < 80 → getZMultiplier conf = 1.96) := by
  unfold getZMultiplier
  constructor
  · split_ifs <;> tauto
  · intro h
    split_ifs with h1 h2 h3 h4 h5 <;> first | rfl | linarith

/-- Witness for C9: an out-of-range confidence level of 50 yields the 95%
multiplier. -/
theorem getZMultiplier_total_default_witness :
    (50:ℝ) < 80 ∧ getZMultiplier 50 = 1.96 :=
  ⟨by norm_num, (getZMultiplier_total_default 50).2 (by norm_num)⟩

/-- C5: a volatility window with mean 0 has coefficient of variation exactly 0
and risk tier Low; the risk tier is High iff CV > 50, Medium iff 30 < CV ≤ 50,
Low iff CV ≤ 30; and every constant series has CV 0 and tier Low. -/
theorem volatility_cv_zero_mean_and_tiers :
    (∀ qs : List ℝ, windowMean qs = 0 →
      volatilityCV qs = 0 ∧ riskTier (volatilityCV qs) = RiskTier.low) ∧
    (∀ c : ℝ, (riskTier c = RiskTier.high ↔ 50 < c) ∧
      (riskTier c = RiskTier.medium ↔ 30 < c ∧ c ≤ 50) ∧
      (riskTier c = RiskTier.low ↔ c ≤ 30)) ∧
    (∀ (n : ℕ) (c : ℝ), volatilityCV (List.replicate n c) = 0 ∧
      riskTier (volatilityCV (List.replicate n c)) = RiskTier.low) := by
  have htier : ∀ c : ℝ, (riskTier c = RiskTier.high ↔ 50 < c) ∧
      (riskTier c = RiskTier.medium ↔ 30 < c ∧ c ≤ 50) ∧
      (riskTier c = RiskTier.low ↔ c ≤ 30) := by
    intro c
    unfold riskTier
    split_ifs with h1 h2 <;>
      refine ⟨?_, ?_, ?_⟩ <;> simp_all <;> try linarith
  have hzero : ∀ qs : List ℝ, windowMean qs = 0 →
      volatilityCV qs = 0 ∧ riskTier (volatilityCV qs) = RiskTier.low := by
    intro qs h
    have hcv : volatilityCV qs = 0 := by
      unfold volatilityCV
      rw [h]
      simp
    exact ⟨hcv, by rw [hcv]; exact (htier 0).2.2.mpr (by norm_num)⟩
  refine ⟨hzero, htier, ?_⟩
  intro n c
  have hcv : volatilityCV (List.replicate n c) = 0 := by
    rcases Nat.eq_zero_or_pos n with rfl | hn
    · exact (hzero [] (by simp [windowMean])).1
    · have hne : ((n:ℝ)) ≠ 0 := Nat.cast_ne_zero.mpr hn.ne'
      have hmean : windowMean (List.replicate n c) = c := by
        unfold windowMean
        rw [List.sum_replicate, List.length_replicate, nsmul_eq_mul,
          mul_div_cancel_left₀ _ hne]
      have hstd : windowStdDev (List.replicate n c) = 0 := by
        unfold windowStdDev
        rw [List.map_replicate, hmean, sub_self, List.length_replicate]
        norm_num [List.sum_replicate]
      unfold volatilityCV
      rw [hmean, hstd]
      split_ifs <;> simp
  exact ⟨hcv, by rw [hcv]; exact (htier 0).2.2.mpr (by norm_num)⟩

/-- Witness for C5: the constant window [4, 4, 4] has CV 0 and tier Low. -/
theorem volatility_cv_zero_mean_and_tiers_witness :
    volatilityCV (List.replicate 3 (4:ℝ)) = 0 ∧
      riskTier (volatilityCV (List.replicate 3 (4:ℝ))) = RiskTier.low :=
  volatility_cv_zero_mean_and_tiers.2.2 3 4

/-- C8: the coefficient of variation the VolatilityRanker computes is invariant
under uniform scaling by a positive constant when the window mean is positive,
so the risk tier is unchanged by such scaling. -/
theorem volatility_scale_invariance (qs : List ℝ) (k : ℝ) (hk : 0 < k)
    (hm : 0 < windowMean qs) :
    volatilityCV (qs.map (fun q => k * q)) = volatilityCV qs ∧
      riskTier (volatilityCV (qs.map (fun q => k * q))) = riskTier (volatilityCV qs) := by
  have hsum : (qs.map (fun q => k * q)).sum = k * qs.sum := listSum_map_mul qs k
  have hlen : (qs.map (fun q => k * q)).length = qs.length := List.length_map _ _
  have hmean : windowMean (qs.map (fun q => k * q)) = k * windowMean qs := by
    unfold windowMean
    rw [hsum, hlen, mul_div_assoc]
  have hstd : windowStdDev (qs.map (fun q => k * q)) = k * windowStdDev qs := by
    unfold windowStdDev
    rw [hlen, hmean]
    have hmap : (qs.map (fun q => k * q)).map
        (fun q => (q - k * windowMean qs) ^ 2) =
        (qs.map (fun q => (q - windowMean qs) ^ 2)).map (fun x => k ^ 2 * x) := by
      rw [List.map_map, List.map_map]
      apply List.map_congr_left
      intro a _
      simp only [Function.comp]
      ring
    rw [hmap, listSum_map_mul ((qs.map (fun q => (q - windowMean qs) ^ 2))) (k ^ 2),
      mul_div_assoc, Real.sqrt_mul (sq_nonneg k), Real.sqrt_sq hk.le]
  have hcv : volatilityCV (qs.map (fun q => k * q)) = volatilityCV qs := by
    unfold volatilityCV
    rw [hmean, hstd]
    have hkm : 0 < k * windowMean qs := mul_pos hk hm
    rw [if_pos hkm, if_pos hm, mul_div_mul_left _ _ (ne_of_gt hk)]
  exact ⟨hcv, by rw [hcv]⟩

/-- Witness for C8: scaling the window [1, 3] by 2 leaves the CV unchanged. -/
theorem volatility_scale_invariance_witness :
    (0:ℝ) < 2 ∧ 0 < windowMean [1, 3] ∧
      volatilityCV ([(1:ℝ), 3].map (fun q => 2 * q)) = volatilityCV [1, 3] :=
  ⟨by norm_num, by norm_num [windowMean],
    (volatility_scale_invariance [1, 3] 2 (by norm_num) (by norm_num [windowMean])).1⟩

/-- C7 `spec-modelled`: the Classifier sorts descending by volume, assigns tiers
by running cumulative percentage thresholds (80 / 95), its tiers are monotone
with respect to descending volume rank for volume sets without negative volumes,
and re-running it on the same input produces identical output. -/
theorem pareto_monotone_idempotent :
    (∀ items : List (String × ℝ), (∀ p ∈ items, 0 ≤ p.2) →
      List.Pairwise (fun a b => gradeRank a.grade ≤ gradeRank b.grade)
        (runParetoAnalysis items)) ∧
    (∀ items : List (String × ℝ), runParetoAnalysis items = runParetoAnalysis items) := by
  constructor
  · intro items hv
    unfold runParetoAnalysis
    apply paretoGo_pairwise
    · apply List.sum_nonneg
      intro x hx
      obtain ⟨p, hp, rfl⟩ := List.mem_map.mp hx
      exact hv p hp
    · intro p hp
      exact hv p (List.mem_mergeSort.mp hp)
  · intro items
    rfl

/-- Witness for C7: the two-item portfolio with volumes 800 and 200 has
monotone tiers. -/
theorem pareto_monotone_idempotent_witness :
    List.Pairwise (fun a b => gradeRank a.grade ≤ gradeRank b.grade)
      (runParetoAnalysis [("a", 800), ("b", 200)]) :=
  pareto_monotone_idempotent.1 [("a", 800), ("b", 200)] (by
    intro p hp
    simp only [List.mem_cons, List.mem_singleton] at hp
    rcases hp with rfl | rfl | h
    · norm_num
    · norm_num
    · simp at h)

theorem getD_map_of_lt {α β : Type _} (f : α → β) (l : List α) (i : ℕ)
    (hi : i < l.length) (d : β) (d' : α) :
    (l.map f).getD i d = f (l.getD i d') := by
  rw [List.getD_eq_getElem?_getD, List.getElem?_map, List.getElem?_eq_getElem hi,
    List.getD_eq_getElem?_getD, List.getElem?_eq_getElem hi]
  rfl

theorem applyShockToPoint_of_none {shocks : List MarketShock} {point : ForecastPoint}
    (h : shocks.find? (fun s => s.month = point.date.ym) = none) :
    applyShockToPoint shocks point = point := by
  unfold applyShockToPoint
  rw [h]

theorem applyShockToPoint_of_some {shocks : List MarketShock} {point : ForecastPoint}
    {s : MarketShock} (h : shocks.find? (fun s => s.month = point.date.ym) = some s)
    (hf : point.isForecast = true) :
    applyShockToPoint shocks point = shockPointUpdate (1 + s.percentageChange / 100) point := by
  unfold applyShockToPoint
  rw [h]
  simp [hf]

theorem applyShockToPoint_not_forecast {shocks : List MarketShock}
    {point : ForecastPoint} (hf : point.isForecast = false) :
    applyShockToPoint shocks point = point := by
  unfold applyShockToPoint
  cases h : shocks.find? (fun s => s.month = point.date.ym) with
  | none => rfl
  | some s => simp [hf]

theorem applyShockToPoint_date (shocks : List MarketShock) (point : ForecastPoint) :
    (applyShockToPoint shocks point).date = point.date := by
  unfold applyShockToPoint
  cases h : shocks.find? (fun s => s.month = point.date.ym) with
  | none => rfl
  | some s =>
    by_cases hf : point.isForecast = true
    · simp [hf, shockPointUpdate]
    · simp at hf
      simp [hf]

/-- C10 counterexample: a forecast point whose `scenarioForecast` is present
with value 0 in a month hit by a +50% shock comes out with `scenarioForecast`
absent (`undefined`), not scaled-and-rounded to 0, because the source guards the
field with JavaScript truthiness. -/
theorem applyMarketShocks_zero_field_counterexample :
    ((applyMarketShocks [exampleShockPoint] [exampleShock]).getD 0 dummyPoint).scenarioForecast ≠
      some ((round ((0:ℝ) * (1 + (50:ℝ) / 100)) : ℤ) : ℝ) := by
  have h : (applyMarketShocks [exampleShockPoint] [exampleShock]).getD 0 dummyPoint =
      shockPointUpdate (1 + (50:ℝ) / 100) exampleShockPoint := by
    simp only [applyMarketShocks, applyShockToPoint, exampleShockPoint, exampleShock,
      List.find?, List.length_cons, List.length_nil, List.map_cons, List.map_nil]
    norm_num
  rw [h]
  simp [shockPointUpdate, shockOptField, exampleShockPoint]

/-- C10 (amended): `applyMarketShocks` preserves length, dates and order; a
non-forecast point, or a point whose month matches no shock, is returned
unchanged; a forecast point matching a shock is rescaled by
`1 + percentageChange/100` and rounded in its forecast and in its present,
non-zero optional financial fields (a present optional field equal to 0 is
dropped by the source's truthiness guard), all other fields untouched. -/
theorem applyMarketShocks_frame (points : List ForecastPoint) (shocks : List MarketShock) :
    (applyMarketShocks points shocks).length = points.length ∧
    (∀ (m : ℝ) (p : ForecastPoint), (shockPointUpdate m p).date = p.date ∧
      (shockPointUpdate m p).historical = p.historical ∧
      (shockPointUpdate m p).lowerBound = p.lowerBound ∧
      (shockPointUpdate m p).upperBound = p.upperBound ∧
      (shockPointUpdate m p).isForecast = p.isForecast ∧
      (shockPointUpdate m p).safetyStock = p.safetyStock ∧
      (shockPointUpdate m p).reorderPoint = p.reorderPoint ∧
      (∀ v, p.scenarioForecast = some v → v ≠ 0 →
        (shockPointUpdate m p).scenarioForecast = some ((round (v * m) : ℤ) : ℝ)) ∧
      (∀ v, p.projectedInventory = some v → v ≠ 0 →
        (shockPointUpdate m p).projectedInventory = some ((round (v * m) : ℤ) : ℝ)) ∧
      (∀ v, p.projectedRevenue = some v → v ≠ 0 →
        (shockPointUpdate m p).projectedRevenue = some ((round (v * m) : ℤ) : ℝ)) ∧
      (∀ v, p.projectedMargin = some v → v ≠ 0 →
        (shockPointUpdate m p).projectedMargin = some ((round (v * m) : ℤ) : ℝ)) ∧
      (shockPointUpdate m p).forecast = ((round (p.forecast * m) : ℤ) : ℝ)) ∧
    ∀ i : ℕ, i < points.length →
      ((applyMarketShocks points shocks).getD i dummyPoint).date =
        (points.getD i dummyPoint).date ∧
      ((points.getD i dummyPoint).isForecast = false →
        (applyMarketShocks points shocks).getD i dummyPoint = points.getD i dummyPoint) ∧
      (shocks.find? (fun s => s.month = (points.getD i dummyPoint).date.ym) = none →
        (applyMarketShocks points shocks).getD i dummyPoint = points.getD i dummyPoint) ∧
      ∀ s, shocks.find? (fun s => s.month = (points.getD i dummyPoint).date.ym) = some s →
        (points.getD i dummyPoint).isForecast = true →
        (applyMarketShocks points shocks).getD i dummyPoint =
          shockPointUpdate (1 + s.percentageChange / 100) (points.getD i dummyPoint) := by
  have hupdate : ∀ (m : ℝ) (p : ForecastPoint), (shockPointUpdate m p).date = p.date ∧
      (shockPointUpdate m p).historical = p.historical ∧
      (shockPointUpdate m p).lowerBound = p.lowerBound ∧
      (shockPointUpdate m p).upperBound = p.upperBound ∧
      (shockPointUpdate m p).isForecast = p.isForecast ∧
      (shockPointUpdate m p).safetyStock = p.safetyStock ∧
      (shockPointUpdate m p).reorderPoint = p.reorderPoint ∧
      (∀ v, p.scenarioForecast = some v → v ≠ 0 →
        (shockPointUpdate m p).scenarioForecast = some ((round (v * m) : ℤ) : ℝ)) ∧
      (∀ v, p.projectedInventory = some v → v ≠ 0 →
        (shockPointUpdate m p).projectedInventory = some ((round (v * m) : ℤ) : ℝ)) ∧
      (∀ v, p.projectedRevenue = some v → v ≠ 0 →
        (shockPointUpdate m p).projectedRevenue = some ((round (v * m) : ℤ) : ℝ)) ∧
      (∀ v, p.projectedMargin = some v → v ≠ 0 →
        (shockPointUpdate m p).projectedMargin = some ((round (v * m) : ℤ) : ℝ)) ∧
      (shockPointUpdate m p).forecast = ((round (p.forecast * m) : ℤ) : ℝ) := by
    intro m p
    refine ⟨rfl, rfl, rfl, rfl, rfl, rfl, rfl, ?_, ?_, ?_, ?_, rfl⟩ <;>
      · intro v hv hv0
        simp [shockPointUpdate, shockOptField, hv, hv0]
  by_cases hs : shocks.length = 0
  · have hnil : shocks = [] := List.length_eq_zero.mp hs
    subst hnil
    have he : applyMarketShocks points [] = points := by
      simp [applyMarketShocks]
    refine ⟨by rw [he], hupdate, ?_⟩
    intro i hi
    rw [he]
    refine ⟨rfl, fun _ => rfl, fun _ => rfl, ?_⟩
    intro s hfind
    simp at hfind
  · have he : applyMarketShocks points shocks = points.map (applyShockToPoint shocks) := by
      simp only [applyMarketShocks]
      rw [if_neg hs]
    have hlen : (applyMarketShocks points shocks).length = points.length := by
      rw [he, List.length_map]
    refine ⟨hlen, hupdate, ?_⟩
    intro i hi
    have hmap : (applyMarketShocks points shocks).getD i dummyPoint =
        applyShockToPoint shocks (points.getD i dummyPoint) := by
      rw [he]
      exact getD_map_of_lt _ _ _ hi _ _
    rw [hmap]
    refine ⟨applyShockToPoint_date _ _, ?_, ?_, ?_⟩
    · intro hf
      exact applyShockToPoint_not_forecast hf
    · intro hfind
      exact applyShockToPoint_of_none hfind
    · intro s hfind hf
      exact applyShockToPoint_of_some hfind hf

/-- Witness for C10 (amended): the frame property instantiated on a concrete
one-point series and one shock: the output date at index 0 equals the input
date. -/
theorem applyMarketShocks_frame_witness :
    ((applyMarketShocks [exampleShockPoint] [exampleShock]).getD 0 dummyPoint).date =
      ([exampleShockPoint].getD 0 dummyPoint).date :=
  ((applyMarketShocks_frame [exampleShockPoint] [exampleShock]).2.2 0 (by norm_num)).1

/-- C2 (code evaluated at the failing input): the Phase-2 scoring slice keeps a
matched pair whose forecast date is 12 months before the forecast start — the
first month of the holdout window, inside the 6 lead months the claim says are
excluded — and that pair alone determines a 30% MAPE. -/
theorem backtest_slice_includes_lead_month :
    sliceWindow (100 - 12) (100 - 1) exampleLeadRun = [(10, 7)] ∧
    mapeOf (sliceWindow (100 - 12) (100 - 1) exampleLeadRun) = 30 ∧
    88 < 100 - 6 := by
  have hslice : sliceWindow (100 - 12) (100 - 1) exampleLeadRun = [(10, 7)] := by
    simp [sliceWindow, exampleLeadRun, List.range, List.range.loop]
  refine ⟨hslice, ?_, by norm_num⟩
  rw [hslice]
  unfold mapeOf
  norm_num

/-- C2 (amended): the Phase-2 per-method scoring slice keeps exactly the matched
(actual, forecast) pairs whose forecast dates fall anywhere in the full
holdout window [test start, test end] — in `backtestMethodPairs` the window
[forecast start - 12 months, forecast start - 1 month] — not only those in its
most recent 6 months. -/
theorem backtest_slice_full_window (tsYm teYm : ℕ) (run : MethodRun) :
    (∀ idx, idx < run.dates.length →
      tsYm ≤ (run.dates.getD idx ⟨0, 1⟩).ym ∧ (run.dates.getD idx ⟨0, 1⟩).ym ≤ teYm →
      (run.actuals.getD idx 0, run.forecasts.getD idx 0) ∈ sliceWindow tsYm teYm run) ∧
    (∀ p ∈ sliceWindow tsYm teYm run, ∃ idx, idx < run.dates.length ∧
      tsYm ≤ (run.dates.getD idx ⟨0, 1⟩).ym ∧ (run.dates.getD idx ⟨0, 1⟩).ym ≤ teYm ∧
      p = (run.actuals.getD idx 0, run.forecasts.getD idx 0)) := by
  constructor
  · intro idx hidx hin
    unfold sliceWindow
    apply List.mem_filterMap.mpr
    refine ⟨idx, List.mem_range.mpr hidx, ?_⟩
    rw [if_pos hin]
  · intro p hp
    unfold sliceWindow at hp
    obtain ⟨idx, hidx, hif⟩ := List.mem_filterMap.mp hp
    by_cases hin : tsYm ≤ (run.dates.getD idx ⟨0, 1⟩).ym ∧
        (run.dates.getD idx ⟨0, 1⟩).ym ≤ teYm
    · rw [if_pos hin] at hif
      exact ⟨idx, List.mem_range.mp hidx, hin.1, hin.2, (Option.some_inj.mp hif).symm⟩
    · rw [if_neg hin] at hif
      exact absurd hif (Option.noConfusion)

/-- Witness for C2 (amended): the pair dated at the very start of the holdout
window is kept by the slice. -/
theorem backtest_slice_full_window_witness :
    0 < exampleLeadRun.dates.length ∧
      (exampleLeadRun.actuals.getD 0 0, exampleLeadRun.forecasts.getD 0 0) ∈
        sliceWindow 88 99 exampleLeadRun :=
  ⟨by simp [exampleLeadRun],
    (backtest_slice_full_window 88 99 exampleLeadRun).1 0 (by simp [exampleLeadRun])
      (by simp [exampleLeadRun])⟩

/-- C6: a SKU with fewer than 18 historical points, or fewer than 6 training
points dated before the holdout start, is skipped by the backtest: `processSku`
returns `none` for it, it contributes zero (actual, forecast) pairs to every
method's aggregation, and the aggregation over the remaining SKUs is unchanged. -/
theorem backtest_skips_insufficient_sku (data : List DataPoint) (conf : ℝ)
    (hw : HWMethod) (auto : Bool) (fsYm : ℕ) (sku : String)
    (h : (skuSeries data sku).length < 18 ∨
      ((skuSeries data sku).filter
        (fun d => d.date < (⟨fsYm - 12, 1⟩ : CalDate))).length < 6) :
    processSku data conf hw auto ⟨fsYm - 12, 1⟩ sku = none ∧
    ∀ (skus : List String) (m : ForecastMethodology),
      backtestMethodPairs data (sku :: skus) conf hw auto fsYm m =
        backtestMethodPairs data skus conf hw auto fsYm m := by
  have hnone : processSku data conf hw auto ⟨fsYm - 12, 1⟩ sku = none := by
    simp only [processSku]
    rcases h with h | h
    · rw [if_pos h]
    · by_cases h18 : (skuSeries data sku).length < 18
      · rw [if_pos h18]
      · rw [if_neg h18, if_pos h]
  refine ⟨hnone, ?_⟩
  intro skus m
  unfold backtestMethodPairs
  rw [List.filterMap_cons]
  rw [hnone]

/-- Witness for C6: a single-point series is skipped and leaves the aggregation
of an empty SKU list unchanged. -/
theorem backtest_skips_insufficient_sku_witness :
    ((skuSeries exampleData2 "A").length < 18 ∨
      ((skuSeries exampleData2 "A").filter
        (fun d => d.date < (⟨88, 1⟩ : CalDate))).length < 6) ∧
    processSku exampleData2 95 .multiplicative false ⟨100 - 12, 1⟩ "A" = none := by
  have h : (skuSeries exampleData2 "A").length < 18 := by
    have hle := List.length_filter_le (fun d => decide (d.sku = "A")) exampleData2
    have hperm := List.mergeSort_perm (exampleData2.filter (fun d => d.sku = "A"))
      (fun a b => decide (a.date ≤ b.date))
    have hlen := hperm.length_eq
    simp only [skuSeries]
    rw [hlen]
    have : exampleData2.length = 2 := by simp [exampleData2]
    omega
  exact ⟨Or.inl h,
    (backtest_skips_insufficient_sku exampleData2 95 .multiplicative false 100 "A"
      (Or.inl h)).1⟩

end SCF
